import Mathlib

/-!
Verification of the SQL safety layer of a Postgres MCP server:
the statement splitter, the read-only statement classifier, the
suspicious-pattern scan, the validation entry point and the identifier
quoter, embedded shallowly over lists of characters.
-/

namespace PgMcp

/-- Whitespace as JavaScript's trim and regex whitespace class recognize
it, by code point: tab, line feed, vertical tab, form feed, carriage
return, space, no-break space, ogham space, the en-quad..hair-space
block, line and paragraph separators, narrow no-break, medium
mathematical, ideographic space and the byte order mark. -/
def isJsWhitespace (c : Char) : Bool :=
  (9 ≤ c.toNat && c.toNat ≤ 13) || c.toNat = 32 || c.toNat = 160 ||
  c.toNat = 0x1680 || (0x2000 ≤ c.toNat && c.toNat ≤ 0x200A) ||
  c.toNat = 0x2028 || c.toNat = 0x2029 || c.toNat = 0x202F ||
  c.toNat = 0x205F || c.toNat = 0x3000 || c.toNat = 0xFEFF

/-- JavaScript String.prototype.trim on a character list. -/
def jsTrim (l : List Char) : List Char :=
  ((l.dropWhile isJsWhitespace).reverse.dropWhile isJsWhitespace).reverse

/-- Word characters of the regex class used in the classifier:
ASCII letters (code points 65-90 and 97-122), digits (48-57) and the
underscore (95). -/
def isWordChar (c : Char) : Bool :=
  (97 ≤ c.toNat && c.toNat ≤ 122) || (65 ≤ c.toNat && c.toNat ≤ 90) ||
  (48 ≤ c.toNat && c.toNat ≤ 57) || c.toNat = 95

/-- ASCII lowering, modelling toLowerCase on the character range the
keyword sets live in. -/
def asciiLower (c : Char) : Char :=
  if 'A' ≤ c && c ≤ 'Z' then Char.ofNat (c.toNat + 32) else c

/-- Lowercase a character list. -/
def jsToLower (l : List Char) : List Char := l.map asciiLower

/-- Substring occurrence, modelling String.prototype.includes. -/
def containsSubstr (needle hay : List Char) : Bool :=
  hay.tails.any (fun t => needle.isPrefixOf t)

/-- Scanner state of QueryValidator.splitStatements: the string / line
comment / block comment flags, the remembered string delimiter, the
statement buffer being accumulated and the statements emitted so far.
The skipNext flag models the source's mid-loop index increment: the next
input character has already been consumed. -/
structure SplitState where
  inString : Bool
  delim : Option Char
  inComment : Bool
  inBlock : Bool
  skipNext : Bool
  current : List Char
  stmts : List (List Char)
deriving DecidableEq

/-- Condition under which a semicolon separates statements: not inside a
string, a line comment or a block comment. -/
abbrev TopSep (st : SplitState) (c : Char) : Prop :=
  st.inString = false ∧ st.inComment = false ∧ st.inBlock = false ∧ c = ';'

/-- One iteration of the splitStatements loop body on character c with
lookahead next?, translated branch for branch from the source. -/
def splitStep (st : SplitState) (c : Char) (next? : Option Char) : SplitState :=
  if st.inString = false ∧ st.inComment = false ∧ c = '/' ∧ next? = some '*' then
    { st with inBlock := true, current := st.current ++ [c] }
  else if st.inBlock = true ∧ c = '*' ∧ next? = some '/' then
    { st with inBlock := false, current := st.current ++ [c, '/'], skipNext := true }
  else if st.inString = false ∧ st.inBlock = false ∧ c = '-' ∧ next? = some '-' then
    { st with inComment := true, current := st.current ++ [c] }
  else if st.inComment = true ∧ c = '\n' then
    { st with inComment := false, current := st.current ++ [c] }
  else
    let st' :=
      if st.inComment = false ∧ st.inBlock = false ∧ (c = '\'' ∨ c = '"') then
        if st.inString = false then { st with inString := true, delim := some c }
        else if some c = st.delim then
          if next? ≠ some c then { st with inString := false, delim := none }
          else { st with current := st.current ++ [c], skipNext := true }
        else st
      else st
    if st'.inString = false ∧ st'.inComment = false ∧ st'.inBlock = false ∧ c = ';' then
      { st' with
        current := [],
        stmts := st'.stmts ++ (if jsTrim st'.current = [] then [] else [jsTrim st'.current]) }
    else { st' with current := st'.current ++ [c] }

/-- End of input: flush the remaining buffer if its trim is non-empty. -/
def flushFinal (st : SplitState) : List (List Char) :=
  st.stmts ++ (if jsTrim st.current = [] then [] else [jsTrim st.current])

/-- Driver of the splitStatements scan over the remaining characters. -/
def splitAux (st : SplitState) : List Char → List (List Char)
  | [] => flushFinal st
  | c :: rest =>
    if st.skipNext = true then splitAux { st with skipNext := false } rest
    else splitAux (splitStep st c rest.head?) rest

/-- Initial scanner state. -/
def initState : SplitState :=
  { inString := false, delim := none, inComment := false, inBlock := false,
    skipNext := false, current := [], stmts := [] }

/-- QueryValidator.splitStatements. -/
def splitStatements (q : String) : List String :=
  (splitAux initState q.data).map (fun s => String.mk s)

/-- WRITE_OPERATIONS keyword set. -/
def WRITE_OPERATIONS : List (List Char) :=
  ["insert".data, "update".data, "delete".data, "truncate".data, "drop".data,
   "alter".data, "create".data, "grant".data, "revoke".data, "import".data,
   "copy".data, "merge".data, "upsert".data, "replace".data]

/-- SAFE_KEYWORDS keyword set. -/
def SAFE_KEYWORDS : List (List Char) :=
  ["select".data, "with".data, "show".data, "explain".data, "values".data,
   "table".data, "describe".data, "desc".data]

/-- Removal of one anchored leading open parenthesis with surrounding
whitespace, as the classifier's anchored replace performs. -/
def stripLeadingParen (l : List Char) : List Char :=
  match l.dropWhile isJsWhitespace with
  | '(' :: rest => rest.dropWhile isJsWhitespace
  | _ => l

/-- QueryValidator.isWriteStatement on a character list. -/
def isWriteStatementL (stmt : List Char) : Bool :=
  let trimmed := jsTrim stmt
  if trimmed = [] then false
  else
    let normalized := stripLeadingParen trimmed
    let firstWord := normalized.takeWhile isWordChar
    if firstWord = [] then false
    else if jsToLower firstWord = "with".data then
      WRITE_OPERATIONS.any (fun w => containsSubstr w (jsToLower stmt))
    else
      !(SAFE_KEYWORDS.any (fun k => k = jsToLower firstWord))

/-- QueryValidator.isWriteStatement. -/
def isWriteStatement (stmt : String) : Bool :=
  isWriteStatementL stmt.data

/-- The leading keyword the classifier extracts from a statement:
trim, strip one anchored leading parenthesis, take the leading word
characters, lowercase. -/
def leadingKeyword (stmt : List Char) : List Char :=
  jsToLower ((stripLeadingParen (jsTrim stmt)).takeWhile isWordChar)

/-- Error thrown by query validation. -/
structure QueryValidationError where
  message : String
deriving DecidableEq

/-- Message of the write-disallowed failure. -/
def writeDisabledMsg : String :=
  "Write operations are disabled. Consult a human to enable this."

/-- Loop of QueryValidator.checkReadOnly over the split statements. -/
def checkReadOnlyList : List String → Except QueryValidationError Unit
  | [] => Except.ok ()
  | s :: rest =>
    if isWriteStatement s then Except.error ⟨writeDisabledMsg⟩
    else checkReadOnlyList rest

/-- QueryValidator.checkReadOnly. -/
def checkReadOnly (q : String) : Except QueryValidationError Unit :=
  checkReadOnlyList (splitStatements q)

/-- Predicate of the spec's statement-separator notion: scanning the
remaining characters from the given state, some semicolon is reached
outside every string and comment (the five-state scanner's separator
branch fires). -/
def hitsTopSemi (st : SplitState) : List Char → Bool
  | [] => false
  | c :: rest =>
    if st.skipNext = true then hitsTopSemi { st with skipNext := false } rest
    else if TopSep st c then true
    else hitsTopSemi (splitStep st c rest.head?) rest

/-- Adjacent occurrence of the two-character sequence a b somewhere in
the list. -/
def hasPair (a b : Char) : List Char → Bool
  | [] => false
  | [_] => false
  | x :: y :: rest => (x = a && y = b) || hasPair a b (y :: rest)

/-- Line terminators, which the regex dot does not match. -/
def isLineTerm (c : Char) : Bool :=
  c = '\n' || c = '\r' || c.val = 0x2028 || c.val = 0x2029

/-- Match a literal at the front, returning the remainder. -/
def matchLit (w : List Char) (l : List Char) : Option (List Char) :=
  if w.isPrefixOf l then some (l.drop w.length) else none

/-- Match zero or more whitespace characters at the front. -/
def matchWsStar (l : List Char) : Option (List Char) :=
  some (l.dropWhile isJsWhitespace)

/-- Match one or more whitespace characters at the front. -/
def matchWsPlus (l : List Char) : Option (List Char) :=
  match l with
  | c :: rest => if isJsWhitespace c then some (rest.dropWhile isJsWhitespace) else none
  | [] => none

/-- Match any run of non-line-terminator characters, then the
continuation, at some split point (the regex dot-star). -/
def dotStarThen (p : List Char → Bool) : List Char → Bool
  | [] => p []
  | c :: rest => p (c :: rest) || (!isLineTerm c && dotStarThen p rest)

/-- Anchored match at some position of the input (regex test semantics). -/
def anyPos (p : List Char → Bool) (l : List Char) : Bool :=
  l.tails.any p

/-- Pattern 0: semicolon, optional whitespace, drop, whitespace. -/
def pat0At (l : List Char) : Bool :=
  ((matchLit (";".data) l).bind matchWsStar |>.bind (matchLit ("drop".data))
    |>.bind matchWsPlus).isSome

/-- Pattern 1: semicolon, optional whitespace, delete from. -/
def pat1At (l : List Char) : Bool :=
  ((matchLit (";".data) l).bind matchWsStar |>.bind (matchLit ("delete".data))
    |>.bind matchWsPlus |>.bind (matchLit ("from".data)) |>.bind matchWsPlus).isSome

/-- Pattern 2: union all select null. -/
def pat2At (l : List Char) : Bool :=
  ((matchLit ("union".data) l).bind matchWsPlus |>.bind (matchLit ("all".data))
    |>.bind matchWsPlus |>.bind (matchLit ("select".data))
    |>.bind matchWsPlus |>.bind (matchLit ("null".data))).isSome

/-- Pattern 3: block comment followed by drop. -/
def pat3At (l : List Char) : Bool :=
  match matchLit ("/*".data) l with
  | none => false
  | some r =>
    dotStarThen
      (fun t => ((matchLit ("*/".data) t).bind matchWsStar
        |>.bind (matchLit ("drop".data))).isSome) r

/-- Pattern 4: line comment followed by drop and whitespace. -/
def pat4At (l : List Char) : Bool :=
  match matchLit ("--".data) l with
  | none => false
  | some r =>
    dotStarThen
      (fun t => ((matchLit ("drop".data) t).bind matchWsPlus).isSome) r

/-- Pattern 5: the xp_cmdshell procedure name. -/
def pat5At (l : List Char) : Bool :=
  (matchLit ("xp_cmdshell".data) l).isSome

/-- Pattern 6: exec followed by an open parenthesis. -/
def pat6At (l : List Char) : Bool :=
  ((matchLit ("exec".data) l).bind matchWsStar |>.bind (matchLit ("(".data))).isSome

/-- The suspicious patterns of checkForSqlInjection, in source order;
each is tested case-insensitively anywhere in the query. -/
def suspiciousPatterns : List (List Char → Bool) :=
  [anyPos pat0At, anyPos pat1At, anyPos pat2At, anyPos pat3At,
   anyPos pat4At, anyPos pat5At, anyPos pat6At]

/-- QueryValidator.checkForSqlInjection, modelled as the list of indices
of the patterns whose match triggers a warning log entry; the function
performs no other observable action and cannot fail. -/
def checkForSqlInjection (q : List Char) : List Nat :=
  (List.range suspiciousPatterns.length).filter
    (fun i => (suspiciousPatterns.getD i (fun _ => false)) (jsToLower q))

instance {ε α : Type} [DecidableEq ε] [DecidableEq α] : DecidableEq (Except ε α) :=
  fun a b =>
    match a, b with
    | Except.ok x, Except.ok y =>
      if h : x = y then isTrue (by rw [h]) else isFalse (by simp [h])
    | Except.error e, Except.error f =>
      if h : e = f then isTrue (by rw [h]) else isFalse (by simp [h])
    | Except.ok _, Except.error _ => isFalse (by simp)
    | Except.error _, Except.ok _ => isFalse (by simp)

/-- Result of QueryValidator.validate: the warnings logged by the
suspicious-pattern scan, and the returned or thrown outcome. -/
structure ValidateResult where
  warnings : List Nat
  result : Except QueryValidationError Unit
deriving DecidableEq

/-- QueryValidator.validate. -/
def validate (allowWriteOps : Bool) (q : String) : ValidateResult :=
  if q.data = [] ∨ jsTrim q.data = [] then
    { warnings := [], result := Except.error ⟨"Query cannot be empty"⟩ }
  else
    { warnings := checkForSqlInjection q.data,
      result := if allowWriteOps = false then checkReadOnly q else Except.ok () }

/-- Error thrown by the database layer. -/
structure PostgresError where
  message : String
  code : Option String := none
  detail : Option String := none
deriving DecidableEq

/-- Doubling of embedded double quotes, as the quoter's global replace
performs. -/
def escapeQuotes (l : List Char) : List Char :=
  l.flatMap (fun c => if c = '"' then ['"', '"'] else [c])

/-- DatabaseConnection.quoteIdentifier. -/
def quoteIdentifier (identifier : String) : Except PostgresError String :=
  if identifier.data.contains '\x00' then
    Except.error { message := "Identifier cannot contain null bytes" }
  else
    Except.ok (String.mk ('"' :: escapeQuotes identifier.data ++ ['"']))

/-! Basic lemmas about the read-only gate. -/

lemma checkReadOnlyList_ok_iff (l : List String) :
    checkReadOnlyList l = Except.ok () ↔ ∀ s ∈ l, isWriteStatement s = false := by
  induction l with
  | nil => simp [checkReadOnlyList]
  | cons a t ih =>
    by_cases h : isWriteStatement a <;>
      simp [checkReadOnlyList, h, ih]

lemma checkReadOnlyList_find (l : List String) (s : String)
    (h : l.find? (fun t => isWriteStatement t) = some s) :
    checkReadOnlyList l = Except.error ⟨writeDisabledMsg⟩ := by
  induction l with
  | nil => simp at h
  | cons a t ih =>
    by_cases ha : isWriteStatement a
    · simp [checkReadOnlyList, ha]
    · rw [List.find?_cons_of_neg _ (by simpa using ha)] at h
      simp [checkReadOnlyList, ha, ih h]

/-- C1: with write operations disallowed, the read-only gate splits the
query into statements and classifies each in source order: it succeeds
exactly when every statement classifies as non-write, it aborts with the
write-disallowed ValidationFailure whenever the in-order scan finds a
write statement (the first such statement being the cause), validate
defers to this gate on every non-empty query, and on the example
query the offending statement identified is the second one. -/
theorem c1_readonly_gate :
    (∀ q : String,
      (checkReadOnly q = Except.ok () ↔
        ∀ s ∈ splitStatements q, isWriteStatement s = false))
    ∧ (∀ q s, (splitStatements q).find? (fun t => isWriteStatement t) = some s →
        checkReadOnly q = Except.error ⟨writeDisabledMsg⟩)
    ∧ (∀ q : String, jsTrim q.data ≠ [] →
        (validate false q).result = checkReadOnly q)
    ∧ splitStatements "SELECT 1; DELETE FROM t" = ["SELECT 1", "DELETE FROM t"]
    ∧ (splitStatements "SELECT 1; DELETE FROM t").find? (fun t => isWriteStatement t)
        = some "DELETE FROM t"
    ∧ checkReadOnly "SELECT 1; DELETE FROM t" = Except.error ⟨writeDisabledMsg⟩
    ∧ checkReadOnly "SELECT 1; SELECT 2" = Except.ok () := by
  refine ⟨fun q => checkReadOnlyList_ok_iff _, fun q s h => checkReadOnlyList_find _ _ h,
    fun q h => ?_, by decide, by decide, by decide, by decide⟩
  have hq : ¬(q.data = [] ∨ jsTrim q.data = []) := by
    rintro (h1 | h1)
    · exact h (by simp [h1, jsTrim])
    · exact h h1
  simp [validate, hq]

/-- C1 witness: the gate applied to the concrete two-statement example. -/
theorem c1_readonly_gate_witness :
    checkReadOnly "SELECT 1; DELETE FROM t" = Except.error ⟨writeDisabledMsg⟩ :=
  c1_readonly_gate.2.1 "SELECT 1; DELETE FROM t" "DELETE FROM t" (by decide)

/-- C2: for every statement whose leading keyword is with, the
classifier returns write exactly when the statement's full text contains
some WRITE_OPERATIONS keyword as a case-insensitive substring; the CTE
hiding a DELETE classifies as write and the innocuous CTE as non-write. -/
theorem c2_cte_conservative_scan :
    (∀ s : String, leadingKeyword s.data = ("with".data) →
      (isWriteStatement s = true ↔
        ∃ w ∈ WRITE_OPERATIONS, containsSubstr w (jsToLower s.data) = true))
    ∧ isWriteStatement "WITH t AS (DELETE FROM u) SELECT 1" = true
    ∧ isWriteStatement "WITH t AS (SELECT 1) SELECT * FROM t" = false := by
  refine ⟨fun s h => ?_, by decide, by decide⟩
  have htrim : ¬(jsTrim s.data = []) := by
    intro he
    rw [leadingKeyword, he] at h
    simp [stripLeadingParen, jsToLower] at h
  have hfw : ¬((stripLeadingParen (jsTrim s.data)).takeWhile isWordChar = []) := by
    intro he
    rw [leadingKeyword, he] at h
    simp [jsToLower] at h
  rw [leadingKeyword] at h
  simp only [isWriteStatement, isWriteStatementL]
  rw [if_neg htrim, if_neg hfw, if_pos h]
  simp [List.any_eq_true]

/-- C2 witness: the CTE example applied through the equivalence. -/
theorem c2_cte_conservative_scan_witness :
    ∃ w ∈ WRITE_OPERATIONS,
      containsSubstr w (jsToLower (("WITH t AS (DELETE FROM u) SELECT 1" : String).data)) = true :=
  (c2_cte_conservative_scan.1 "WITH t AS (DELETE FROM u) SELECT 1" (by decide)).mp
    c2_cte_conservative_scan.2.1

/-- C5: a statement whose text, after trimming and the single anchored
parenthesis strip, does not begin with a word character classifies as
not-a-write, and the block-comment-prefixed DROP example passes
validation with writes disallowed. -/
theorem c5_non_word_lead_not_write :
    (∀ s : String, (stripLeadingParen (jsTrim s.data)).takeWhile isWordChar = [] →
      isWriteStatement s = false)
    ∧ isWriteStatement "/* hide */ DROP TABLE t" = false
    ∧ checkReadOnly "/* hide */ DROP TABLE t" = Except.ok ()
    ∧ (validate false "/* hide */ DROP TABLE t").result = Except.ok () := by
  refine ⟨fun s h => ?_, by decide, by decide, by decide⟩
  simp only [isWriteStatement, isWriteStatementL]
  by_cases ht : jsTrim s.data = []
  · simp [ht]
  · simp [ht, h]

/-- C5 witness: the comment-prefixed DROP statement through the general
classifier fact. -/
theorem c5_non_word_lead_not_write_witness :
    isWriteStatement "/* hide */ DROP TABLE t" = false :=
  c5_non_word_lead_not_write.1 "/* hide */ DROP TABLE t" (by decide)

/-- C6: the identifier quoter rejects identifiers containing a null byte
and otherwise doubles every embedded double quote and wraps the result
in double quotes; quoting the example identifier yields the doubled
form. -/
theorem c6_quote_identifier :
    (∀ ident : String,
      (ident.data.contains '\x00' = true →
        quoteIdentifier ident = Except.error { message := "Identifier cannot contain null bytes" })
      ∧ (ident.data.contains '\x00' = false →
        quoteIdentifier ident = Except.ok (String.mk ('"' :: escapeQuotes ident.data ++ ['"']))))
    ∧ escapeQuotes (("my\"table" : String).data) = ("my\"\"table" : String).data
    ∧ quoteIdentifier "my\"table" = Except.ok "\"my\"\"table\"" := by
  refine ⟨fun ident => ⟨fun h => ?_, fun h => ?_⟩, by decide, by decide⟩
  · have h' : '\x00' ∈ ident.data := by simpa using h
    simp [quoteIdentifier, h']
  · have h' : '\x00' ∉ ident.data := by simpa using h
    simp [quoteIdentifier, h']

/-- C6 witness: both alternatives of the quoter at concrete inputs. -/
theorem c6_quote_identifier_witness :
    quoteIdentifier "a\x00b" = Except.error { message := "Identifier cannot contain null bytes" }
    ∧ quoteIdentifier "ab" = Except.ok (String.mk ('"' :: escapeQuotes (("ab" : String).data) ++ ['"'])) :=
  ⟨(c6_quote_identifier.1 "a\x00b").1 (by decide), (c6_quote_identifier.1 "ab").2 (by decide)⟩

/-- C7: validate rejects a query whose trimmed text is empty whatever
the write setting, and with writes allowed it accepts every query whose
trimmed text is non-empty, skipping classification. -/
theorem c7_empty_rejected_writes_allowed_pass :
    (∀ (allow : Bool) (q : String), jsTrim q.data = [] →
      (validate allow q).result = Except.error ⟨"Query cannot be empty"⟩)
    ∧ (∀ q : String, jsTrim q.data ≠ [] →
      (validate true q).result = Except.ok ()) := by
  constructor
  · intro allow q h
    simp [validate, h]
  · intro q h
    have hq : ¬(q.data = [] ∨ jsTrim q.data = []) := by
      rintro (h1 | h1)
      · exact h (by simp [h1, jsTrim])
      · exact h h1
    simp [validate, hq]

/-- C7 witness: a whitespace-only rejection and a write statement passing
with writes allowed. -/
theorem c7_empty_rejected_writes_allowed_pass_witness :
    (validate false "  ").result = Except.error ⟨"Query cannot be empty"⟩
    ∧ (validate true "DROP TABLE t").result = Except.ok () :=
  ⟨c7_empty_rejected_writes_allowed_pass.1 false "  " (by decide),
   c7_empty_rejected_writes_allowed_pass.2 "DROP TABLE t" (by decide)⟩

/-- C10: the suspicious-pattern scan cannot fail and never alters the
validation outcome: the result of validate is a function of the
emptiness test and, when writes are disallowed, the read-only gate
alone; a query matching the xp_cmdshell pattern is logged yet passes. -/
theorem c10_patterns_observability_only :
    (∀ (allow : Bool) (q : String),
      (validate allow q).result =
        (if jsTrim q.data = [] then Except.error ⟨"Query cannot be empty"⟩
         else if allow = true then Except.ok () else checkReadOnly q))
    ∧ checkForSqlInjection (("SELECT xp_cmdshell" : String).data) = [5]
    ∧ (validate false "SELECT xp_cmdshell").warnings = [5]
    ∧ (validate false "SELECT xp_cmdshell").result = Except.ok () := by
  refine ⟨fun allow q => ?_, by decide, by decide, by decide⟩
  by_cases h : jsTrim q.data = []
  · simp [validate, h]
  · have h2 : ¬(q.data = []) := fun h1 => h (by simp [h1, jsTrim])
    cases allow <;> simp [validate, h, h2]

/-- C4 counterexample: a write statement wrapped in two leading
parentheses classifies as non-write, while unwrapped it classifies as
write, refuting the claim that any number of leading parentheses is
stripped before keyword extraction. -/
theorem c4_counterexample :
    isWriteStatement "DROP TABLE t" = true
    ∧ isWriteStatement "((DROP TABLE t))" = false := by decide

/-- C8 counterexample: the empty string contains none of the forbidden
characters, yet splitting the concatenation around the semicolon yields
zero statements rather than two. -/
theorem c8_counterexample :
    (("" : String).data.all
      (fun c => !(c == ';') && !(c == '\'') && !(c == '"'))) = true
    ∧ hasPair '-' '-' ("" : String).data = false
    ∧ hasPair '/' '*' ("" : String).data = false
    ∧ splitStatements ("" ++ ";" ++ "") = []
    ∧ (splitStatements ("" ++ ";" ++ "")).length = 0 := by decide

/-! Lemmas about one scanner step and the absence of top-level
semicolons. -/

lemma splitStep_not_sep (st : SplitState) (c : Char) (n : Option Char)
    (hsk : st.skipNext = false) (h : ¬ TopSep st c) :
    (splitStep st c n).stmts = st.stmts ∧
    (((splitStep st c n).skipNext = false ∧ (splitStep st c n).current = st.current ++ [c]) ∨
     (∃ m, n = some m ∧ (splitStep st c n).skipNext = true ∧
       (splitStep st c n).current = st.current ++ [c, m])) := by
  rw [splitStep]
  by_cases h1 : st.inString = false ∧ st.inComment = false ∧ c = '/' ∧ n = some '*'
  · rw [if_pos h1]
    exact ⟨rfl, Or.inl ⟨hsk, rfl⟩⟩
  rw [if_neg h1]
  by_cases h2 : st.inBlock = true ∧ c = '*' ∧ n = some '/'
  · rw [if_pos h2]
    exact ⟨rfl, Or.inr ⟨'/', h2.2.2, rfl, rfl⟩⟩
  rw [if_neg h2]
  by_cases h3 : st.inString = false ∧ st.inBlock = false ∧ c = '-' ∧ n = some '-'
  · rw [if_pos h3]
    exact ⟨rfl, Or.inl ⟨hsk, rfl⟩⟩
  rw [if_neg h3]
  by_cases h4 : st.inComment = true ∧ c = '\n'
  · rw [if_pos h4]
    exact ⟨rfl, Or.inl ⟨hsk, rfl⟩⟩
  rw [if_neg h4]
  by_cases h5 : st.inComment = false ∧ st.inBlock = false ∧ (c = '\'' ∨ c = '"')
  · rw [if_pos h5]
    by_cases h6 : st.inString = false
    · rw [if_pos h6, if_neg (by simp)]
      exact ⟨rfl, Or.inl ⟨hsk, rfl⟩⟩
    · rw [if_neg h6]
      by_cases h7 : some c = st.delim
      · rw [if_pos h7]
        by_cases h8 : n ≠ some c
        · rw [if_pos h8]
          have hn : ¬((false : Bool) = false ∧ st.inComment = false ∧ st.inBlock = false
              ∧ c = ';') := by
            rintro ⟨-, -, -, rfl⟩
            rcases h5.2.2 with hq | hq <;> exact absurd hq (by decide)
          rw [if_neg hn]
          exact ⟨rfl, Or.inl ⟨hsk, rfl⟩⟩
        · rw [if_neg h8]
          push_neg at h8
          have hst : st.inString = true := by
            revert h6; cases st.inString <;> simp
          rw [if_neg (by simp [hst])]
          exact ⟨rfl, Or.inr ⟨c, h8, rfl, by simp⟩⟩
      · rw [if_neg h7, if_neg h]
        exact ⟨rfl, Or.inl ⟨hsk, rfl⟩⟩
  · rw [if_neg h5, if_neg h]
    exact ⟨rfl, Or.inl ⟨hsk, rfl⟩⟩

lemma splitAux_no_semi (cs : List Char) (st : SplitState)
    (h : hitsTopSemi st cs = false) :
    splitAux st cs =
      st.stmts ++
        (if jsTrim (st.current ++ (if st.skipNext = true then cs.tail else cs)) = []
         then []
         else [jsTrim (st.current ++ (if st.skipNext = true then cs.tail else cs))]) := by
  induction cs generalizing st with
  | nil =>
    cases hsk : st.skipNext <;>
      simp [splitAux, flushFinal, hsk]
  | cons c rest ih =>
    simp only [hitsTopSemi] at h
    by_cases hsk : st.skipNext = true
    · rw [if_pos hsk] at h
      simp only [splitAux]
      rw [if_pos hsk, ih _ h]
      simp [hsk]
    · rw [if_neg hsk] at h
      by_cases htop : TopSep st c
      · rw [if_pos htop] at h
        exact absurd h (by simp)
      rw [if_neg htop] at h
      simp only [splitAux]
      rw [if_neg hsk]
      have hsk' : st.skipNext = false := by
        revert hsk; cases st.skipNext <;> simp
      have hstep := splitStep_not_sep st c rest.head? hsk' htop
      rw [ih _ h, hstep.1]
      rcases hstep.2 with ⟨hs, hc⟩ | ⟨m, hm, hs, hc⟩
      · rw [hc, hs]
        simp [hsk']
      · have hrest : rest = m :: rest.tail := by
          cases rest with
          | nil => simp at hm
          | cons a t =>
            simp only [List.head?_cons, Option.some.injEq] at hm
            simp [hm]
        rw [hc, hs]
        conv_rhs => rw [hrest]
        simp [hsk']

/-- C3: a query in which the five-state scanner meets no semicolon
outside strings and comments splits into exactly one statement, the
trimmed input, or into no statement when the trimmed input is empty; in
particular the semicolon inside a quoted string does not separate. -/
theorem c3_no_top_semicolon_single_statement :
    (∀ q : String, hitsTopSemi initState q.data = false →
      splitStatements q =
        if jsTrim q.data = [] then [] else [String.mk (jsTrim q.data)])
    ∧ hitsTopSemi initState (("SELECT 'a;b'" : String).data) = false
    ∧ splitStatements "SELECT 'a;b'" = ["SELECT 'a;b'"] := by
  refine ⟨fun q h => ?_, by decide, by decide⟩
  rw [splitStatements, splitAux_no_semi _ _ h]
  by_cases ht : jsTrim q.data = [] <;> simp [initState, ht]

/-- C3 witness: the quoted-semicolon example through the general
statement. -/
theorem c3_no_top_semicolon_single_statement_witness :
    splitStatements "SELECT 'a;b'" =
      if jsTrim (("SELECT 'a;b'" : String).data) = []
      then [] else [String.mk (jsTrim (("SELECT 'a;b'" : String).data))] :=
  c3_no_top_semicolon_single_statement.1 "SELECT 'a;b'"
    c3_no_top_semicolon_single_statement.2.1

/-- C9: on a doubled string delimiter the scanner copies both quote
characters into the buffer, advances past both, and stays inside the
string; the escaped-quote example splits into one statement and
classifies as non-write. -/
theorem c9_escaped_quote :
    (∀ (st : SplitState) (d : Char) (rest : List Char),
      st.inString = true → st.delim = some d → st.inComment = false →
      st.inBlock = false → st.skipNext = false → (d = '\'' ∨ d = '"') →
      splitAux st (d :: d :: rest) =
        splitAux { st with current := st.current ++ [d, d], skipNext := false } rest)
    ∧ splitStatements "SELECT 'it''s fine'" = ["SELECT 'it''s fine'"]
    ∧ isWriteStatement "SELECT 'it''s fine'" = false := by
  refine ⟨fun st d rest hstr hdel hcom hblk hsk hd => ?_, by decide, by decide⟩
  have hstep : splitStep st d (some d) =
      { st with current := st.current ++ [d, d], skipNext := true } := by
    simp [splitStep, hstr, hdel, hcom, hblk, hd]
  rw [splitAux.eq_2, if_neg (by simp [hsk]), List.head?_cons, hstep,
    splitAux.eq_2, if_pos rfl]

/-- C9 witness: the escaped-quote step at a concrete scanner state. -/
theorem c9_escaped_quote_witness :
    splitAux { inString := true, delim := some '\'', inComment := false, inBlock := false,
               skipNext := false, current := ['a'], stmts := [] } ['\'', '\''] =
      splitAux { inString := true, delim := some '\'', inComment := false, inBlock := false,
                 skipNext := false, current := ['a', '\'', '\''], stmts := [] } [] :=
  c9_escaped_quote.1 _ '\'' [] rfl rfl rfl rfl rfl (Or.inl rfl)

/-! Lemmas for scanning plain text: characters that are not separators,
quotes, or the start of a comment are copied verbatim. -/

lemma splitStep_plain (st : SplitState) (c : Char) (n : Option Char)
    (_hstr : st.inString = false) (hcom : st.inComment = false) (hblk : st.inBlock = false)
    (hc : c ≠ ';' ∧ c ≠ '\'' ∧ c ≠ '"')
    (hn1 : ¬(c = '/' ∧ n = some '*')) (hn2 : ¬(c = '-' ∧ n = some '-')) :
    splitStep st c n = { st with current := st.current ++ [c] } := by
  have hq : ¬(st.inComment = false ∧ st.inBlock = false ∧ (c = '\'' ∨ c = '"')) := by
    rintro ⟨-, -, h | h⟩
    exacts [hc.2.1 h, hc.2.2 h]
  have hsep : ¬(st.inString = false ∧ st.inComment = false ∧ st.inBlock = false
      ∧ c = ';') := by
    rintro ⟨-, -, -, h⟩
    exact hc.1 h
  have h1 : ¬(st.inString = false ∧ st.inComment = false ∧ c = '/' ∧ n = some '*') := by
    rintro ⟨-, -, h, h'⟩
    exact hn1 ⟨h, h'⟩
  have h2 : ¬(st.inBlock = true ∧ c = '*' ∧ n = some '/') := by simp [hblk]
  have h3 : ¬(st.inString = false ∧ st.inBlock = false ∧ c = '-' ∧ n = some '-') := by
    rintro ⟨-, -, h, h'⟩
    exact hn2 ⟨h, h'⟩
  have h4 : ¬(st.inComment = true ∧ c = '\n') := by simp [hcom]
  rw [splitStep, if_neg h1, if_neg h2, if_neg h3, if_neg h4, if_neg hq, if_neg hsep]

lemma splitStep_semi (st : SplitState) (n : Option Char)
    (hstr : st.inString = false) (hcom : st.inComment = false) (hblk : st.inBlock = false) :
    splitStep st ';' n =
      { st with
        current := [],
        stmts := st.stmts ++ (if jsTrim st.current = [] then [] else [jsTrim st.current]) } := by
  have hq : ¬(st.inComment = false ∧ st.inBlock = false
      ∧ ((';' : Char) = '\'' ∨ (';' : Char) = '"')) := by
    rintro ⟨-, -, h | h⟩ <;> exact absurd h (by decide)
  have h1 : ¬(st.inString = false ∧ st.inComment = false ∧ (';' : Char) = '/'
      ∧ n = some '*') := by
    rintro ⟨-, -, h, -⟩
    exact absurd h (by decide)
  have h2 : ¬(st.inBlock = true ∧ (';' : Char) = '*' ∧ n = some '/') := by simp [hblk]
  have h3 : ¬(st.inString = false ∧ st.inBlock = false ∧ (';' : Char) = '-'
      ∧ n = some '-') := by
    rintro ⟨-, -, h, -⟩
    exact absurd h (by decide)
  have h4 : ¬(st.inComment = true ∧ (';' : Char) = '\n') := by simp [hcom]
  rw [splitStep, if_neg h1, if_neg h2, if_neg h3, if_neg h4, if_neg hq,
    if_pos ⟨hstr, hcom, hblk, rfl⟩]

lemma hasPair_cons_false {a b c : Char} {l : List Char}
    (h : hasPair a b (c :: l) = false) : hasPair a b l = false := by
  cases l with
  | nil => rfl
  | cons y t =>
    rw [hasPair] at h
    simp only [Bool.or_eq_false_iff] at h
    exact h.2

lemma splitAux_plain : ∀ (cs : List Char) (st : SplitState) (rest : List Char),
    st.inString = false → st.inComment = false → st.inBlock = false →
    st.skipNext = false →
    (∀ c ∈ cs, c ≠ ';' ∧ c ≠ '\'' ∧ c ≠ '"') →
    hasPair '-' '-' cs = false → hasPair '/' '*' cs = false →
    (∀ m, rest.head? = some m → m ≠ '*' ∧ m ≠ '-') →
    splitAux st (cs ++ rest) = splitAux { st with current := st.current ++ cs } rest := by
  intro cs
  induction cs with
  | nil =>
    intro st rest _ _ _ _ _ _ _ _
    simp
  | cons c cs' ih =>
    intro st rest hstr hcom hblk hsk hmem hp1 hp2 hrest
    have hc := hmem c (List.mem_cons_self c cs')
    have hn1 : ¬(c = '/' ∧ (cs' ++ rest).head? = some '*') := by
      rintro ⟨rfl, hh⟩
      cases cs' with
      | nil =>
        rw [List.nil_append] at hh
        exact (hrest '*' hh).1 rfl
      | cons a t =>
        rw [List.cons_append, List.head?_cons, Option.some.injEq] at hh
        rw [hasPair] at hp2
        simp [hh] at hp2
    have hn2 : ¬(c = '-' ∧ (cs' ++ rest).head? = some '-') := by
      rintro ⟨rfl, hh⟩
      cases cs' with
      | nil =>
        rw [List.nil_append] at hh
        exact (hrest '-' hh).2 rfl
      | cons a t =>
        rw [List.cons_append, List.head?_cons, Option.some.injEq] at hh
        rw [hasPair] at hp1
        simp [hh] at hp1
    have hstep := splitStep_plain st c ((cs' ++ rest).head?) hstr hcom hblk hc hn1 hn2
    rw [List.cons_append, splitAux.eq_2, if_neg (by simp [hsk]), hstep]
    rw [ih { st with current := st.current ++ [c] } rest hstr hcom hblk hsk
      (fun x hx => hmem x (List.mem_cons_of_mem c hx))
      (hasPair_cons_false hp1) (hasPair_cons_false hp2) hrest]
    simp

/-- C8 amended: for strings s containing none of the separator, quote
and comment-opening sequences and whose trimmed text is non-empty,
splitting s followed by a semicolon followed by s yields exactly two
statements, each the trimmed s. -/
theorem c8_amended_double_split :
    ∀ s : String,
      (∀ c ∈ s.data, c ≠ ';' ∧ c ≠ '\'' ∧ c ≠ '"') →
      hasPair '-' '-' s.data = false →
      hasPair '/' '*' s.data = false →
      jsTrim s.data ≠ [] →
      splitStatements (s ++ ";" ++ s) =
        [String.mk (jsTrim s.data), String.mk (jsTrim s.data)] := by
  intro s hmem hp1 hp2 hne
  have hdata : (s ++ ";" ++ s).data = s.data ++ (';' :: s.data) := by
    rw [String.data_append, String.data_append, List.append_assoc]
    rfl
  have hrest : ∀ m : Char, (';' :: s.data).head? = some m → m ≠ '*' ∧ m ≠ '-' := by
    intro m hm
    rw [List.head?_cons, Option.some.injEq] at hm
    subst hm
    exact ⟨by decide, by decide⟩
  have e1 : splitAux initState (s.data ++ (';' :: s.data)) =
      splitAux { inString := false, delim := none, inComment := false, inBlock := false,
                 skipNext := false, current := s.data, stmts := [] } (';' :: s.data) := by
    rw [splitAux_plain s.data initState (';' :: s.data) rfl rfl rfl rfl hmem hp1 hp2 hrest]
    rfl
  have e2 : splitAux { inString := false, delim := none, inComment := false, inBlock := false,
                       skipNext := false, current := s.data, stmts := [] } (';' :: s.data) =
      splitAux { inString := false, delim := none, inComment := false, inBlock := false,
                 skipNext := false, current := [], stmts := [jsTrim s.data] } s.data := by
    rw [splitAux.eq_2, if_neg (by simp)]
    rw [splitStep_semi _ _ rfl rfl rfl]
    simp [hne]
  have e3 : splitAux { inString := false, delim := none, inComment := false, inBlock := false,
                       skipNext := false, current := [], stmts := [jsTrim s.data] } s.data =
      splitAux { inString := false, delim := none, inComment := false, inBlock := false,
                 skipNext := false, current := s.data, stmts := [jsTrim s.data] } [] := by
    have h3 := splitAux_plain s.data
      { inString := false, delim := none, inComment := false, inBlock := false,
        skipNext := false, current := [], stmts := [jsTrim s.data] } []
      rfl rfl rfl rfl hmem hp1 hp2 (by intro m hm; simp at hm)
    simpa using h3
  have e4 : splitAux { inString := false, delim := none, inComment := false, inBlock := false,
                       skipNext := false, current := s.data, stmts := [jsTrim s.data] } [] =
      [jsTrim s.data, jsTrim s.data] := by
    rw [splitAux.eq_1]
    simp [flushFinal, hne]
  rw [splitStatements, hdata, e1, e2, e3, e4]
  rfl

/-- C8 amended witness: the double-split fact at a concrete statement. -/
theorem c8_amended_double_split_witness :
    splitStatements ("SELECT 1" ++ ";" ++ "SELECT 1") =
      [String.mk (jsTrim (("SELECT 1" : String).data)),
       String.mk (jsTrim (("SELECT 1" : String).data))] :=
  c8_amended_double_split "SELECT 1" (by decide) (by decide) (by decide) (by decide)

/-! Lemmas about trimming and the leading-parenthesis strip, for the
single-parenthesis behaviour of the classifier. -/

lemma dropWhile_append_eq (p : Char → Bool) (xs ys : List Char) :
    (xs ++ ys).dropWhile p =
      if xs.dropWhile p = [] then ys.dropWhile p else xs.dropWhile p ++ ys := by
  induction xs with
  | nil => simp
  | cons a xs ih =>
    by_cases h : p a
    · simp only [List.cons_append, List.dropWhile_cons_of_pos h, ih]
    · simp [List.cons_append, List.dropWhile_cons_of_neg h]

lemma rdropWhile_cons_of_neg (p : Char → Bool) (c : Char) (l : List Char)
    (h : p c = false) :
    List.rdropWhile p (c :: l) = c :: List.rdropWhile p l := by
  rw [List.rdropWhile, List.rdropWhile, List.reverse_cons, dropWhile_append_eq]
  by_cases hnil : l.reverse.dropWhile p = []
  · rw [if_pos hnil, List.dropWhile_cons_of_neg (by simp [h]), hnil]
    simp
  · rw [if_neg hnil]
    simp

lemma rdropWhile_cons_of_ne_nil (p : Char → Bool) (c : Char) (l : List Char)
    (h : List.rdropWhile p l ≠ []) :
    List.rdropWhile p (c :: l) = c :: List.rdropWhile p l := by
  have h' : l.reverse.dropWhile p ≠ [] := by
    intro he
    exact h (by rw [List.rdropWhile, he, List.reverse_nil])
  rw [List.rdropWhile, List.rdropWhile, List.reverse_cons, dropWhile_append_eq, if_neg h']
  simp

lemma dropWhile_rdropWhile_comm (p : Char → Bool) (l : List Char) :
    (List.rdropWhile p l).dropWhile p = List.rdropWhile p (l.dropWhile p) := by
  induction l with
  | nil => simp [List.rdropWhile]
  | cons c t ih =>
    by_cases hc : p c
    · by_cases hnil : List.rdropWhile p t = []
      · have h1 : List.rdropWhile p (c :: t) = [] := by
          rw [List.rdropWhile_eq_nil_iff]
          intro x hx
          rcases List.mem_cons.mp hx with rfl | hx
          · exact hc
          · exact List.rdropWhile_eq_nil_iff.mp hnil x hx
        rw [h1, List.dropWhile_cons_of_pos hc, ← ih, hnil]
      · rw [rdropWhile_cons_of_ne_nil p c t hnil, List.dropWhile_cons_of_pos hc,
          List.dropWhile_cons_of_pos hc, ih]
    · have hb : p c = false := by revert hc; cases p c <;> simp
      rw [rdropWhile_cons_of_neg p c t hb, List.dropWhile_cons_of_neg hc,
        List.dropWhile_cons_of_neg hc, rdropWhile_cons_of_neg p c t hb]

lemma jsTrim_eq (l : List Char) :
    jsTrim l = List.rdropWhile isJsWhitespace (l.dropWhile isJsWhitespace) := rfl

lemma isWordChar_not_ws {c : Char} (h : isWordChar c = true) :
    isJsWhitespace c = false := by
  simp only [isWordChar, Bool.or_eq_true, Bool.and_eq_true, decide_eq_true_eq] at h
  simp only [isJsWhitespace, Bool.or_eq_false_iff, Bool.and_eq_false_iff,
    decide_eq_false_iff_not]
  omega

lemma isWordChar_ne_paren {c : Char} (h : isWordChar c = true) : c ≠ '(' := by
  rintro rfl
  exact absurd h (by decide)

lemma any_congr_mem {α : Type} (l : List α) (f g : α → Bool)
    (h : ∀ x ∈ l, f x = g x) : l.any f = l.any g := by
  induction l with
  | nil => rfl
  | cons a t ih =>
    rw [List.any_cons, List.any_cons, h a (List.mem_cons_self a t),
      ih (fun x hx => h x (List.mem_cons_of_mem a hx))]

lemma containsSubstr_cons (w : List Char) (a : Char) (L : List Char) :
    containsSubstr w (a :: L) = (w.isPrefixOf (a :: L) || containsSubstr w L) := by
  rw [containsSubstr, containsSubstr, List.tails_cons, List.any_cons]

lemma containsSubstr_wordhead_cons (w : List Char) (a : Char) (L : List Char)
    (hw : ∃ x t, w = x :: t ∧ isWordChar x = true) (ha : isWordChar a = false) :
    containsSubstr w (a :: L) = containsSubstr w L := by
  obtain ⟨x, t, rfl, hx⟩ := hw
  have hxa : x ≠ a := by
    rintro rfl
    rw [hx] at ha
    exact absurd ha (by simp)
  have hpre : (x :: t).isPrefixOf (a :: L) = false := by
    simp [List.isPrefixOf, hxa]
  rw [containsSubstr_cons, hpre, Bool.false_or]

lemma isWriteStatementL_reform (stmt : List Char) :
    isWriteStatementL stmt =
      if jsTrim stmt = [] then false
      else if (stripLeadingParen (jsTrim stmt)).takeWhile isWordChar = [] then false
      else if jsToLower ((stripLeadingParen (jsTrim stmt)).takeWhile isWordChar)
          = ("with".data) then
        WRITE_OPERATIONS.any (fun w => containsSubstr w (jsToLower stmt))
      else
        !(SAFE_KEYWORDS.any
          (fun k => k = jsToLower ((stripLeadingParen (jsTrim stmt)).takeWhile isWordChar))) :=
  rfl

/-- C4 amended: the classifier strips at most one immediately-leading
open parenthesis with surrounding whitespace before extracting the
leading keyword, so wrapping a statement whose trimmed text begins with
a word character in one pair of parentheses leaves its classification
unchanged; the parenthesised SELECT stays non-write, a write statement
in one leading parenthesis still classifies as write, but a second
leading parenthesis defeats keyword extraction and the statement
classifies as non-write. -/
theorem c4_amended_single_paren_strip :
    (∀ (s : String) (c : Char), (jsTrim s.data).head? = some c → isWordChar c = true →
      isWriteStatement ("(" ++ s) = isWriteStatement s)
    ∧ isWriteStatement "(SELECT 1)" = false
    ∧ isWriteStatement "(DROP TABLE t)" = true
    ∧ isWriteStatement "((DROP TABLE t))" = false := by
  refine ⟨fun s c hhead hword => ?_, by decide, by decide, by decide⟩
  have hdata : ("(" ++ s).data = '(' :: s.data := by
    rw [String.data_append]
    rfl
  have hws : isJsWhitespace '(' = false := by decide
  have htrim1 : jsTrim ('(' :: s.data)
      = '(' :: List.rdropWhile isJsWhitespace s.data := by
    rw [jsTrim_eq, List.dropWhile_cons_of_neg (by simp [hws]),
      rdropWhile_cons_of_neg _ _ _ hws]
  have hstrip1 : stripLeadingParen ('(' :: List.rdropWhile isJsWhitespace s.data)
      = (List.rdropWhile isJsWhitespace s.data).dropWhile isJsWhitespace := by
    rw [stripLeadingParen, List.dropWhile_cons_of_neg (by simp [hws])]
    rfl
  have hcws : isJsWhitespace c = false := isWordChar_not_ws hword
  have hcp : c ≠ '(' := isWordChar_ne_paren hword
  obtain ⟨tl, htl⟩ : ∃ tl, jsTrim s.data = c :: tl := by
    cases hjt : jsTrim s.data with
    | nil => rw [hjt] at hhead; simp at hhead
    | cons a t =>
      rw [hjt, List.head?_cons, Option.some.injEq] at hhead
      exact ⟨t, by rw [hhead]⟩
  have hnorm2 : stripLeadingParen (jsTrim s.data) = jsTrim s.data := by
    rw [stripLeadingParen, htl, List.dropWhile_cons_of_neg (by simp [hcws])]
    split
    · rename_i rest heq
      injection heq with h1 h2
      exact absurd h1 hcp
    · rfl
  have hfw : (jsTrim s.data).takeWhile isWordChar ≠ [] := by
    rw [htl, List.takeWhile_cons_of_pos hword]
    simp
  have hlow : jsToLower ('(' :: s.data) = '(' :: jsToLower s.data := by
    rw [jsToLower, List.map_cons, show asciiLower '(' = '(' from by decide]
    rfl
  have hany : WRITE_OPERATIONS.any (fun w => containsSubstr w ('(' :: jsToLower s.data))
      = WRITE_OPERATIONS.any (fun w => containsSubstr w (jsToLower s.data)) := by
    refine any_congr_mem _ _ _ fun w hw => ?_
    refine containsSubstr_wordhead_cons w '(' (jsToLower s.data) ?_ (by decide)
    simp only [WRITE_OPERATIONS, List.mem_cons, List.not_mem_nil, or_false] at hw
    rcases hw with rfl | rfl | rfl | rfl | rfl | rfl | rfl | rfl | rfl | rfl | rfl
      | rfl | rfl | rfl <;>
      exact ⟨_, _, rfl, by decide⟩
  rw [isWriteStatement, isWriteStatement, hdata, isWriteStatementL_reform,
    isWriteStatementL_reform, htrim1, hstrip1]
  rw [show (List.rdropWhile isJsWhitespace s.data).dropWhile isJsWhitespace
      = jsTrim s.data from by rw [dropWhile_rdropWhile_comm, ← jsTrim_eq]]
  rw [hnorm2]
  have hne1 : ('(' :: List.rdropWhile isJsWhitespace s.data) ≠ ([] : List Char) := by simp
  have hne2 : jsTrim s.data ≠ [] := by rw [htl]; simp
  rw [if_neg hne1, if_neg hne2, if_neg hfw, if_neg hfw]
  by_cases hwith : jsToLower ((jsTrim s.data).takeWhile isWordChar) = ("with".data)
  · rw [if_pos hwith, if_pos hwith, hlow, hany]
  · rw [if_neg hwith, if_neg hwith]

/-- C4 amended witness: a write statement wrapped in one parenthesis
classifies like the unwrapped statement. -/
theorem c4_amended_single_paren_strip_witness :
    isWriteStatement ("(" ++ "DELETE FROM t") = isWriteStatement "DELETE FROM t" :=
  c4_amended_single_paren_strip.1 "DELETE FROM t" 'D' (by decide) (by decide)

end PgMcp
